import Mathlib

/-!
Verification of the index lifecycle and access-scheduling layer of
pod5-random-access (src/pod5_random_access/reader.py and build.py).

The Python code is shallowly embedded as executable Lean definitions:

* Paths, file names and record identifiers (uuids) are `String`s; input
  paths are assumed already absolute and normalized, so `Path.resolve()`
  is the identity and `path.parent / (path.name + suffix)` is
  `path ++ suffix`.
* The external native `Pod5Index` component (pybind) is modelled by an
  index content table `IndexContent` mapping a uuid to an abstract signal
  payload (`Nat`): `build_index()` is an arbitrary function
  `build : String → IndexContent` from the pod5 path, `save_index` /
  `load_index` move contents between the in-memory handle and the disk.
* The filesystem is a `World`: a table from index-file path to the stored
  artifact content, plus the set of index-file paths at which
  `save_index` raises (`OSError` / `RuntimeError`).
* Python `dict`s keyed by strings are association lists with
  insert-or-overwrite semantics (`dictInsert` / `dictGet`).
* Exceptions are `Except`: `KeyError` is `ReaderError.notRegistered`,
  `FileNotFoundError` is `ReaderError.artifactUnavailable`, `ValueError`
  from `plan_fetch_order` is `PlanError.invalidArguments`, an exception
  escaping a single build task is `BuildAllError.taskFailed`.
* `numpy` array operations in `plan_fetch_order` are embedded over lists;
  `np.unique` is sort-of-deduplicate, and the grouping pipeline
  (`np.argsort(inverse, kind="stable")` + `np.cumsum` + `np.split`) is
  embedded by its meaning: for each unique file name in ascending order,
  the indices carrying that name in input order.  `np.argsort` with the
  default kind (line 396 of reader.py) guarantees only a sorting
  permutation, not stability, so it is a parameter `argsortU` of the
  planner, constrained where needed by `IsArgsort`.
* The thread pool of build.py is embedded as an in-order fold in which
  each task's failure is caught; the tasks of one batch touch pairwise
  distinct artifact paths, so every completion order produces the same
  final artifact table.
-/

/-- Association-list lookup, the embedding of Python `d[k]` / `k in d`
for string-keyed dicts. -/
def dictGet {β : Type} : List (String × β) → String → Option β
  | [], _ => none
  | (k', v) :: rest, k => if k' = k then some v else dictGet rest k

/-- Association-list insert-or-overwrite, the embedding of Python
`d[k] = v`: overwrites in place, appends when the key is new. -/
def dictInsert {β : Type} : List (String × β) → String → β → List (String × β)
  | [], k, v => [(k, v)]
  | (k', v') :: rest, k, v =>
    if k' = k then (k, v) :: rest else (k', v') :: dictInsert rest k v

/-- Accumulate the final path component: the embedding of
`pathlib.Path(p).name` on the character list of `p`. -/
def lastComponent : List Char → List Char → List Char
  | acc, [] => acc
  | acc, c :: cs => if c = '/' then lastComponent [] cs else lastComponent (acc ++ [c]) cs

/-- `pathlib.Path(p).name`: the base name (final path component) of a path. -/
def baseName (p : String) : String := String.mk (lastComponent [] p.toList)

/-- Code-point lexicographic order on character lists, the order Python's
`sorted` and numpy's `np.unique` use on strings. -/
def lexLe : List Char → List Char → Bool
  | [], _ => true
  | _ :: _, [] => false
  | a :: as, b :: bs =>
    if a.toNat < b.toNat then true
    else if b.toNat < a.toNat then false
    else lexLe as bs

/-- Code-point lexicographic order on strings. -/
def strLe (s t : String) : Bool := lexLe s.toList t.toList

/-- Python `sorted` on a list of path strings (the source sorts `Path`
objects, which agrees with string order for the single-directory inputs
the claims exercise). -/
def sortStrings (l : List String) : List String :=
  l.insertionSort (fun a b => strLe a b = true)

/-- First-seen deduplication: keep each string's first occurrence, in input
order.  Used to state the specification's "first-seen file name" group
order, which the claims attribute to the planner. -/
def firstSeenAux : List String → List String → List String
  | _, [] => []
  | seen, x :: xs =>
    if x ∈ seen then firstSeenAux seen xs else x :: firstSeenAux (x :: seen) xs

/-- The distinct strings of `l` in order of first occurrence. -/
def firstSeen (l : List String) : List String := firstSeenAux [] l

/-- The content of one index: a table from record uuid to its signal
payload (abstracted to `Nat`).  Stands for the data the native
`Pod5Index` holds after `build_index()` or `load_index()`. -/
abbrev IndexContent := List (String × Nat)

/-- The filesystem as seen by this layer: which index artifacts exist on
disk (path ↦ stored content), and at which index paths `save_index`
raises (`OSError` / `RuntimeError`). -/
structure World where
  artifacts : List (String × IndexContent)
  saveFails : List String
deriving DecidableEq

/-- A live native index handle: the pod5 path it was constructed for and
the content it resolved (`Pod5Index` of the pybind module). -/
structure Pod5Index where
  pod5Path : String
  content : IndexContent
deriving DecidableEq

/-- The state of `Pod5RandomAccessReader`: `_pod5_paths` (name ↦ absolute
path), `_indexers` (name ↦ live handle) and the `save_index` default. -/
structure Reader where
  pod5Paths : List (String × String)
  indexers : List (String × Pod5Index)
  saveIndex : Bool
deriving DecidableEq

/-- Errors raised by reader.py: `KeyError` for an unregistered name,
`FileNotFoundError` for a missing index artifact. -/
inductive ReaderError where
  | notRegistered (name : String)
  | artifactUnavailable (path : String)
deriving DecidableEq

/-- `INDEX_SUFFIX = ".idx"` of reader.py. -/
def INDEX_SUFFIX : String := ".idx"

/-- `_index_path_for`: `pod5_path.parent / (pod5_path.name + INDEX_SUFFIX)`,
which for a normalized path string is the path with the suffix appended. -/
def indexPathFor (pod5Path : String) : String := pod5Path ++ INDEX_SUFFIX

/-- `_load_indexer`: load an existing artifact; `FileNotFoundError` when
the index file does not exist.  `Pod5Index.load_index` on a stored
artifact yields the stored content. -/
def _load_indexer (w : World) (pod5Path : String) : Except ReaderError Pod5Index :=
  match dictGet w.artifacts (indexPathFor pod5Path) with
  | none => .error (.artifactUnavailable (indexPathFor pod5Path))
  | some c => .ok ⟨pod5Path, c⟩

/-- `_build_indexer`: build the index in memory and, when `save_index` is
set, try to persist it; a save failure (`OSError` / `RuntimeError`) is
caught, logged as a warning, and the in-memory handle is returned. -/
def _build_indexer (build : String → IndexContent) (w : World) (pod5Path : String)
    (saveIndex : Bool) : Pod5Index × World :=
  let indexer : Pod5Index := ⟨pod5Path, build pod5Path⟩
  if saveIndex then
    let ip := indexPathFor pod5Path
    if ip ∈ w.saveFails then (indexer, w)
    else (indexer, { w with artifacts := dictInsert w.artifacts ip indexer.content })
  else (indexer, w)

/-- `add_pod5`: register a pod5 file.  When its artifact exists the path
alone is bound (deferred load); otherwise the index is built now via
`_build_indexer`.  `save_index = None` falls back to the instance
default. -/
def add_pod5 (build : String → IndexContent) (r : Reader) (w : World)
    (pod5Path : String) (saveIndexArg : Option Bool) : Reader × World :=
  let saveIdx := saveIndexArg.getD r.saveIndex
  let name := baseName pod5Path
  let paths' := dictInsert r.pod5Paths name pod5Path
  if (dictGet w.artifacts (indexPathFor pod5Path)).isSome then
    ({ r with pod5Paths := paths' }, w)
  else
    let bw := _build_indexer build w pod5Path saveIdx
    ({ r with pod5Paths := paths', indexers := dictInsert r.indexers name bw.1 }, bw.2)

/-- `__getstate__` (with `__setstate__` restoring the dict): the pickle
round trip keeps `_pod5_paths` and `save_index` and replaces `_indexers`
by an empty dict. -/
def getstate (r : Reader) : Reader := { r with indexers := [] }

/-- `_get_indexer`: return the live handle for a logical name, lazily
loading it from the artifact when absent; `KeyError` when the name was
never registered.  Returns the possibly-updated reader alongside. -/
def _get_indexer (r : Reader) (w : World) (name : String) :
    Except ReaderError (Pod5Index × Reader) :=
  match dictGet r.indexers name with
  | some idx => .ok (idx, r)
  | none =>
    match dictGet r.pod5Paths name with
    | none => .error (.notRegistered name)
    | some p =>
      match _load_indexer w p with
      | .error e => .error e
      | .ok idx => .ok (idx, { r with indexers := dictInsert r.indexers name idx })

/-- `fetch_signal`: resolve the handle and look the uuid up in its content
(the native point lookup).  The fetched payload is returned with the
possibly-updated reader. -/
def fetch_signal (r : Reader) (w : World) (name uuid : String) :
    Except ReaderError (Option Nat × Reader) :=
  match _get_indexer r w name with
  | .error e => .error e
  | .ok (idx, r') => .ok (dictGet idx.content uuid, r')

/-- Errors surfaced by `build_pod5_index`: `NotADirectoryError`, or an
exception escaping one build task (its `build_index`/`save_index`). -/
inductive BuildAllError where
  | notADirectory
  | taskFailed (path : String)
deriving DecidableEq

/-- `_build_single` of build.py: re-check artifact existence and skip if
present; otherwise build and save.  A save failure is NOT caught here:
it surfaces as `taskFailed`. -/
def _build_single (build : String → IndexContent) (w : World) (f : String) :
    Except BuildAllError World :=
  let ip := indexPathFor f
  if (dictGet w.artifacts ip).isSome then .ok w
  else if ip ∈ w.saveFails then .error (.taskFailed f)
  else .ok { w with artifacts := dictInsert w.artifacts ip (build f) }

/-- The sequential dispatch loop of `build_pod5_index` (`max_workers == 1`):
tasks run in order on the calling thread; the first exception escapes and
the remaining tasks are never started. -/
def buildSeq (build : String → IndexContent) (w : World) :
    List String → Except BuildAllError World
  | [] => .ok w
  | f :: fs =>
    match _build_single build w f with
    | .error e => .error e
    | .ok w' => buildSeq build w' fs

/-- The parallel dispatch loop of `build_pod5_index`: every task runs, each
failure is caught (and logged) independently.  Tasks of one batch touch
pairwise distinct artifact paths, so the fold order does not matter to
the final artifact table. -/
def buildPar (build : String → IndexContent) (w : World) : List String → World
  | [] => w
  | f :: fs =>
    match _build_single build w f with
    | .error _ => buildPar build w fs
    | .ok w' => buildPar build w' fs

/-- The `max_workers` resolution of build.py: an explicit argument wins;
otherwise rotating or undeterminable media give 1 and SSDs give
`os.cpu_count() or 1` (the probe result and cpu count are inputs). -/
def resolveMaxWorkers (maxWorkers : Option Nat) (rotational : Option Bool)
    (cpuCount : Option Nat) : Nat :=
  match maxWorkers with
  | some k => k
  | none =>
    match rotational with
    | none => 1
    | some true => 1
    | some false =>
      match cpuCount with
      | none => 1
      | some c => if c = 0 then 1 else c

/-- `build_pod5_index` of build.py.  `isDir` is whether `pod5_dir` is a
directory, `dirFiles` the files `rglob("*.pod5")` discovers (in any
order; the code sorts them), `rotational`/`cpuCount` the medium probe
and `os.cpu_count()` results.  Returns the attempted target list and
the resulting filesystem. -/
def build_pod5_index (build : String → IndexContent) (isDir : Bool)
    (dirFiles : List String) (maxWorkers : Option Nat) (force : Bool)
    (rotational : Option Bool) (cpuCount : Option Nat) (w : World) :
    Except BuildAllError (List String × World) :=
  if !isDir then .error .notADirectory else
  let allPod5 := sortStrings dirFiles
  if allPod5.isEmpty then .ok ([], w) else
  let targets := if force then allPod5
    else allPod5.filter (fun f => (dictGet w.artifacts (indexPathFor f)).isNone)
  if targets.isEmpty then .ok ([], w) else
  if resolveMaxWorkers maxWorkers rotational cpuCount = 1 then
    match buildSeq build w targets with
    | .error e => .error e
    | .ok w' => .ok (targets, w')
  else .ok (targets, buildPar build w targets)

/-- The `ValueError` of `plan_fetch_order` when neither `key` nor both of
`filenames` and `uuids` are supplied. -/
inductive PlanError where
  | invalidArguments
deriving DecidableEq

/-- The property numpy documents for every `np.argsort` kind: the result is
a permutation of the index range. -/
def IsArgsortPerm (f : List Nat → List Nat) : Prop :=
  ∀ l : List Nat, (f l).Perm (List.range l.length)

/-- The property numpy documents for every `np.argsort` kind: reading the
values in result order is ascending.  Stability of equal keys is NOT part
of this contract for the default kind. -/
def IsArgsortSortedKeys (f : List Nat → List Nat) : Prop :=
  ∀ l : List Nat, List.Sorted (fun a b => a ≤ b) ((f l).map (fun i => l.getD i 0))

/-- The documented contract of `np.argsort` with the default kind. -/
def IsArgsort (f : List Nat → List Nat) : Prop :=
  IsArgsortPerm f ∧ IsArgsortSortedKeys f

/-- A stable argsort over `Nat` keys (insertion sort of the index range by
key value), satisfying `IsArgsort`; used to instantiate the planner's
argsort parameter in witnesses. -/
def argsortInsertion (l : List Nat) : List Nat :=
  (List.range l.length).insertionSort (fun i j => l.getD i 0 ≤ l.getD j 0)

/-- An argsort satisfying the full documented `np.argsort` contract
(`IsArgsort`) that nevertheless reverses runs of equal keys: on an
all-equal key list it returns the reversed index range.  Exhibits that
the default-kind contract alone does not preserve input order on ties. -/
def unstableArgsortDemo (l : List Nat) : List Nat :=
  if l.all (fun x => x == l.headD 0) then (List.range l.length).reverse
  else argsortInsertion l

/-- The indices of `fns` carrying the file name `fn`, in input order: one
group of the `np.unique` + `np.argsort(inverse, kind="stable")` +
`np.split` pipeline of `plan_fetch_order` (lines 381-386 of reader.py),
whose groups are, for each unique name, its indices in input order. -/
def groupOf (fns : List String) (fn : String) : List Nat :=
  (List.range fns.length).filter (fun i => decide (fns.getD i ("") = fn))

/-- `np.unique` on the file-name array: the distinct names in ascending
code-point lexicographic order. -/
def uniqueFns (fns : List String) : List String :=
  (fns.dedup).insertionSort (fun a b => strLe a b = true)

/-- The per-file body of the planner loop (lines 390-397 of reader.py): a
group of size 1 bypasses batch resolution; otherwise the group's uuids
are batch-resolved to row starts through the registry (`starts`, the
order-preserving `get_signal_row_starts` of the file's handle, assumed
resolvable for the planned items) and the group is permuted by
`np.argsort` of the default kind (`argsortU`). -/
def planGroup (argsortU : List Nat → List Nat) (starts : String → String → Nat)
    (uuids : List String) (fn : String) (g : List Nat) : List Nat :=
  if g.length = 1 then g
  else (argsortU (g.map (fun i => starts fn (uuids.getD i (""))))).map (fun j => g.getD j 0)

/-- The full index permutation `plan_fetch_order` computes
(`np.concatenate(result_indices)` of line 400): per-file blocks in
`np.unique` order, each internally ordered by `argsortU` of its row
starts. -/
def planIndices (argsortU : List Nat → List Nat) (starts : String → String → Nat)
    (fns uuids : List String) : List Nat :=
  ((uniqueFns fns).map
    (fun fn => planGroup argsortU starts uuids fn (groupOf fns fn))).flatten

/-- `plan_fetch_order` of reader.py.  `argsortU` is `np.argsort` with the
default kind, `starts` the batch row-start resolution through the
registry.  An empty input returns empty before argument validation; a
`key` function wins over the parallel lists; with neither form a
`ValueError` is raised.  Items are treated as opaque scalars of the
object array of line 401. -/
def plan_fetch_order {α : Type} [Inhabited α] (argsortU : List Nat → List Nat)
    (starts : String → String → Nat) (items : List α)
    (key : Option (α → String × String))
    (filenames : Option (List String)) (uuids : Option (List String)) :
    Except PlanError (List α) :=
  if items.length = 0 then .ok []
  else
    match key with
    | some k =>
      .ok ((planIndices argsortU starts (items.map (fun x => (k x).1))
        (items.map (fun x => (k x).2))).map (fun i => items.getD i default))
    | none =>
      match filenames, uuids with
      | some fns, some us =>
        .ok ((planIndices argsortU starts fns us).map (fun i => items.getD i default))
      | _, _ => .error .invalidArguments

/-- Concrete pod5 contents for the forced-rebuild scenario: building
`/d/a.pod5` yields a table different from the stale artifact below. -/
def c1Build : String → IndexContent := fun _ => [(("u" : String), 1)]

/-- Concrete filesystem for the forced-rebuild scenario: a stale artifact
for `/d/a.pod5` already exists, holding payload 9. -/
def c1World : World := ⟨[(("/d/a.pod5.idx" : String), [(("u" : String), 9)])], []⟩

/-- Concrete pod5 contents for the name-collision scenario: the two paths
sharing the base name `x.pod5` hold different payloads. -/
def c7Build : String → IndexContent :=
  fun p => if p = "/a/x.pod5" then [(("u" : String), 1)] else [(("u" : String), 2)]

/-- Name-collision scenario, first step: register `/a/x.pod5` (no artifact,
so its handle is built and becomes resident) on a disk already holding an
artifact for `/b/x.pod5`. -/
def c7State1 : Reader × World :=
  add_pod5 c7Build ⟨[], [], true⟩
    ⟨[(("/b/x.pod5.idx" : String), [(("u" : String), 2)])], []⟩ ("/a/x.pod5") none

/-- Name-collision scenario, second step: register `/b/x.pod5`, whose
artifact exists, so only the path binding is overwritten (deferred load)
while the handle built for `/a/x.pod5` stays resident. -/
def c7State2 : Reader × World := add_pod5 c7Build c7State1.1 c7State1.2 ("/b/x.pod5") none

/-- Registration always overwrites the path binding, in both the deferred
and the build-now branch of `add_pod5`. -/
theorem add_pod5_pod5Paths (build : String → IndexContent) (r : Reader) (w : World)
    (p : String) (arg : Option Bool) :
    (add_pod5 build r w p arg).1.pod5Paths = dictInsert r.pod5Paths (baseName p) p := by
  unfold add_pod5
  split
  · rfl
  · rfl

/-- Looking a key up right after inserting it yields the inserted value. -/
theorem dictGet_dictInsert_self {β : Type} (m : List (String × β)) (k : String) (v : β) :
    dictGet (dictInsert m k v) k = some v := by
  induction m with
  | nil => simp [dictInsert, dictGet]
  | cons p rest ih =>
    obtain ⟨k', v'⟩ := p
    by_cases h : k' = k
    · simp [dictInsert, dictGet, h]
    · simp [dictInsert, dictGet, h, ih]

/-- Reading a list back through `getD` along its index range is the list. -/
theorem mapGetD_range {α : Type} (l : List α) (d : α) :
    (List.range l.length).map (fun i => l.getD i d) = l := by
  apply List.ext_getElem
  · simp
  · intro n h1 h2
    simp only [List.getElem_map, List.getElem_range]
    exact List.getD_eq_getElem l d h2

/-- Code-point lexicographic order on character lists is total. -/
theorem lexLe_total : ∀ as bs : List Char, lexLe as bs = true ∨ lexLe bs as = true
  | [], _ => Or.inl rfl
  | _ :: _, [] => Or.inr rfl
  | a :: as, b :: bs => by
    by_cases h1 : a.toNat < b.toNat
    · left; simp [lexLe, h1]
    · by_cases h2 : b.toNat < a.toNat
      · right; simp [lexLe, h2]
      · rcases lexLe_total as bs with h | h
        · left; simp [lexLe, h1, h2, h]
        · right; simp [lexLe, h1, h2, h]

/-- Code-point lexicographic order on character lists is transitive. -/
theorem lexLe_trans : ∀ as bs cs : List Char,
    lexLe as bs = true → lexLe bs cs = true → lexLe as cs = true
  | [], _, _ => by intro _ _; rfl
  | _ :: _, [], _ => by intro h _; simp [lexLe] at h
  | _ :: _, _ :: _, [] => by intro _ h; simp [lexLe] at h
  | a :: as, b :: bs, c :: cs => by
    intro h1 h2
    simp only [lexLe] at h1 h2 ⊢
    rcases Nat.lt_trichotomy a.toNat b.toNat with hab | hab | hab
    · rcases Nat.lt_trichotomy b.toNat c.toNat with hbc | hbc | hbc
      · simp [show a.toNat < c.toNat from by omega]
      · simp [show a.toNat < c.toNat from by omega]
      · rw [if_neg (by omega), if_pos hbc] at h2; cases h2
    · rw [if_neg (by omega), if_neg (by omega)] at h1
      rcases Nat.lt_trichotomy b.toNat c.toNat with hbc | hbc | hbc
      · simp [show a.toNat < c.toNat from by omega]
      · rw [if_neg (by omega), if_neg (by omega)] at h2
        rw [if_neg (by omega), if_neg (by omega)]
        exact lexLe_trans as bs cs h1 h2
      · rw [if_neg (by omega), if_pos hbc] at h2; cases h2
    · rw [if_neg (by omega), if_pos hab] at h1; cases h1

/-- Totality of `strLe`. -/
theorem strLe_total (s t : String) : strLe s t = true ∨ strLe t s = true :=
  lexLe_total s.toList t.toList

/-- Transitivity of `strLe`. -/
theorem strLe_trans (s t v : String) :
    strLe s t = true → strLe t v = true → strLe s v = true :=
  lexLe_trans s.toList t.toList v.toList

/-- A list whose members are all one value is sorted by `≤`. -/
theorem sortedConstLe : ∀ (xs : List Nat) (c : Nat),
    (∀ x ∈ xs, x = c) → List.Sorted (fun a b => a ≤ b) xs
  | [], _, _ => List.sorted_nil
  | x :: xs, c, h => by
    rw [List.sorted_cons]
    refine ⟨fun b hb => ?_,
      sortedConstLe xs c (fun y hy => h y (List.mem_cons_of_mem _ hy))⟩
    rw [h x (List.mem_cons_self x xs), h b (List.mem_cons_of_mem _ hb)]

/-- The stable insertion-sort argsort returns a permutation of the index
range. -/
theorem argsortInsertion_perm (l : List Nat) :
    (argsortInsertion l).Perm (List.range l.length) :=
  List.perm_insertionSort _ _

/-- The stable insertion-sort argsort satisfies the permutation half of the
`np.argsort` contract. -/
theorem argsortInsertion_isArgsortPerm : IsArgsortPerm argsortInsertion :=
  fun l => argsortInsertion_perm l

/-- The stable insertion-sort argsort reads the keys back in ascending
order. -/
theorem argsortInsertion_sortedKeys : IsArgsortSortedKeys argsortInsertion := by
  intro l
  haveI : IsTotal Nat (fun i j => l.getD i 0 ≤ l.getD j 0) :=
    ⟨fun a b => Nat.le_total _ _⟩
  haveI : IsTrans Nat (fun i j => l.getD i 0 ≤ l.getD j 0) :=
    ⟨fun _ _ _ hab hbc => le_trans hab hbc⟩
  have hs := List.sorted_insertionSort
    (fun i j => l.getD i 0 ≤ l.getD j 0) (List.range l.length)
  exact List.Pairwise.map _ (fun _ _ h => h) hs

/-- The tie-reversing demonstration argsort meets the full documented
`np.argsort` contract for the default kind. -/
theorem unstableArgsortDemo_isArgsort : IsArgsort unstableArgsortDemo := by
  constructor
  · intro l
    unfold unstableArgsortDemo
    split
    · exact List.reverse_perm _
    · exact argsortInsertion_perm l
  · intro l
    unfold unstableArgsortDemo
    split
    case isTrue h =>
      apply sortedConstLe _ (l.headD 0)
      intro x hx
      rcases List.mem_map.mp hx with ⟨i, hi, rfl⟩
      have hi' : i ∈ List.range l.length := List.mem_reverse.mp hi
      have hilt : i < l.length := List.mem_range.mp hi'
      have hmem : l.getD i 0 ∈ l := by
        rw [List.getD_eq_getElem l 0 hilt]
        exact List.getElem_mem hilt
      have heq := List.all_eq_true.mp h _ hmem
      simpa using heq
    case isFalse h => exact argsortInsertion_sortedKeys l

/-- Whatever sorting permutation `np.argsort` picks, the per-file planner
body permutes its group. -/
theorem planGroup_perm (argsortU : List Nat → List Nat) (hA : IsArgsortPerm argsortU)
    (starts : String → String → Nat) (uuids : List String) (fn : String)
    (g : List Nat) : (planGroup argsortU starts uuids fn g).Perm g := by
  unfold planGroup
  split
  · exact List.Perm.refl g
  · have hperm := hA (g.map (fun i => starts fn (uuids.getD i (""))))
    rw [List.length_map] at hperm
    have hmap := hperm.map (fun j => g.getD j 0)
    rwa [mapGetD_range g 0] at hmap

/-- Flattening blockwise-permuted lists yields permuted flattenings. -/
theorem flattenPermCongr {α β : Type} : ∀ (keys : List α) (B C : α → List β),
    (∀ x ∈ keys, (B x).Perm (C x)) →
    ((keys.map B).flatten).Perm ((keys.map C).flatten)
  | [], _, _, _ => List.Perm.refl []
  | k :: ks, B, C, h => by
    simp only [List.map_cons, List.flatten_cons]
    exact (h k (List.mem_cons_self k ks)).append
      (flattenPermCongr ks B C (fun x hx => h x (List.mem_cons_of_mem _ hx)))

/-- Splitting a list into its fibers over a duplicate-free covering key list
and flattening them back is a permutation of the list.  This is the
meaning of the `np.unique` / stable-argsort / `np.split` grouping
pipeline of `plan_fetch_order`. -/
theorem flattenFilterPerm (keyOf : Nat → String) :
    ∀ (keys : List String) (l : List Nat), keys.Nodup →
    (∀ i ∈ l, keyOf i ∈ keys) →
    ((keys.map (fun fn => l.filter (fun i => decide (keyOf i = fn)))).flatten).Perm l
  | [], l, _, h => by
    cases l with
    | nil => exact List.Perm.refl []
    | cons a as => exact absurd (h a (List.mem_cons_self a as)) (List.not_mem_nil (keyOf a))
  | k :: ks, l, hnd, h => by
    simp only [List.map_cons, List.flatten_cons]
    have hnd' := List.nodup_cons.mp hnd
    have hmapeq : ks.map (fun fn => l.filter (fun i => decide (keyOf i = fn)))
        = ks.map (fun fn => (l.filter (fun i => !(decide (keyOf i = k)))).filter
            (fun i => decide (keyOf i = fn))) := by
      apply List.map_congr_left
      intro fn hfn
      rw [List.filter_filter]
      apply List.filter_congr
      intro i _
      have hfnk : ¬ fn = k := fun hc => hnd'.1 (hc ▸ hfn)
      by_cases hk : keyOf i = fn
      · simp [hk, hfnk]
      · simp [hk]
    rw [hmapeq]
    have hsub : ∀ i ∈ l.filter (fun i => !(decide (keyOf i = k))), keyOf i ∈ ks := by
      intro i hi
      have hmem := List.mem_filter.mp hi
      have h2 : ¬ keyOf i = k := by simpa using hmem.2
      rcases List.mem_cons.mp (h i hmem.1) with hc | hc
      · exact absurd hc h2
      · exact hc
    have hrest := flattenFilterPerm keyOf ks
      (l.filter (fun i => !(decide (keyOf i = k)))) hnd'.2 hsub
    exact (List.Perm.append_left _ hrest).trans
      (List.filter_append_perm (fun i => decide (keyOf i = k)) l)

/-- `np.unique` output is duplicate-free. -/
theorem uniqueFns_nodup (fns : List String) : (uniqueFns fns).Nodup :=
  (List.nodup_dedup fns).perm (List.perm_insertionSort _ _).symm

/-- `np.unique` output is sorted in ascending code-point order. -/
theorem uniqueFns_sorted (fns : List String) :
    List.Sorted (fun a b => strLe a b = true) (uniqueFns fns) := by
  haveI : IsTotal String (fun a b => strLe a b = true) := ⟨strLe_total⟩
  haveI : IsTrans String (fun a b => strLe a b = true) := ⟨strLe_trans⟩
  exact List.sorted_insertionSort _ _

/-- Every position of the file-name list is covered by `np.unique`. -/
theorem uniqueFns_covers (fns : List String) :
    ∀ i ∈ List.range fns.length, fns.getD i ("") ∈ uniqueFns fns := by
  intro i hi
  have hlt := List.mem_range.mp hi
  have hmem : fns.getD i ("") ∈ fns := by
    rw [List.getD_eq_getElem fns ("") hlt]
    exact List.getElem_mem hlt
  exact (List.mem_insertionSort _).mpr (List.mem_dedup.mpr hmem)

/-- The planner's concatenated index order is a permutation of the input
index range, for every argsort meeting the permutation contract. -/
theorem planIndices_perm (argsortU : List Nat → List Nat) (hA : IsArgsortPerm argsortU)
    (starts : String → String → Nat) (fns uuids : List String) :
    (planIndices argsortU starts fns uuids).Perm (List.range fns.length) := by
  unfold planIndices
  have h1 := flattenPermCongr (uniqueFns fns)
    (fun fn => planGroup argsortU starts uuids fn (groupOf fns fn))
    (fun fn => groupOf fns fn)
    (fun fn _ => planGroup_perm argsortU hA starts uuids fn _)
  refine h1.trans ?_
  have h2 := flattenFilterPerm (fun i => fns.getD i ("")) (uniqueFns fns)
    (List.range fns.length) (uniqueFns_nodup fns) (uniqueFns_covers fns)
  simpa [groupOf] using h2

/-- Every index the planner places in a file's block carries that file's
name. -/
theorem planGroup_pure (argsortU : List Nat → List Nat) (hA : IsArgsortPerm argsortU)
    (starts : String → String → Nat) (fns uuids : List String) (fn : String) :
    ∀ i ∈ planGroup argsortU starts uuids fn (groupOf fns fn), fns.getD i ("") = fn := by
  intro i hi
  have hg : i ∈ groupOf fns fn :=
    ((planGroup_perm argsortU hA starts uuids fn _).mem_iff).mp hi
  exact of_decide_eq_true (List.mem_filter.mp hg).2

/-- C1: with `force=True` on a directory whose single container file already
has an artifact, `build_pod5_index` does return the full task list (length
N = 1), but `_build_single` re-checks artifact existence and returns
early, so the stale artifact (payload 9) is left in place instead of the
freshly built content (payload 1): the file is not rebuilt, contradicting
the claim and the function's own docstring. -/
theorem c1_force_does_not_rebuild_existing :
    build_pod5_index c1Build true (["/d/a.pod5"]) none true none none c1World
      = .ok (["/d/a.pod5"], c1World)
    ∧ dictGet c1World.artifacts ("/d/a.pod5.idx") = some [(("u" : String), 9)]
    ∧ c1Build ("/d/a.pod5") ≠ [(("u" : String), 9)] :=
  ⟨rfl, by decide, by decide⟩

/-- C2: the within-group sort of `plan_fetch_order` (line 396 of reader.py)
is `np.argsort` with the default kind, whose documented contract
(`IsArgsort`) does not include stability.  `unstableArgsortDemo` meets
that full contract, yet under it two items of the same file with equal
resolved offsets come back in reversed input order `[20, 10]`, violating
the claimed tie preservation. -/
theorem c2_default_argsort_reverses_ties :
    IsArgsort unstableArgsortDemo
    ∧ plan_fetch_order unstableArgsortDemo (fun _ _ => 5) [10, 20]
        (some (fun _ => (("f" : String), ("u" : String)))) none none = .ok [20, 10] :=
  ⟨unstableArgsortDemo_isArgsort, rfl⟩

/-- C3 counterexample: with input items `[10, 20]` whose file names are
`b.pod5` then `a.pod5` (first-seen order b before a), the planner returns
`[20, 10]`: the group of `a.pod5` comes first because `np.unique` sorts
the names, so the file-groups do NOT appear in first-seen order. -/
theorem c3_first_seen_counterexample :
    plan_fetch_order argsortInsertion (fun _ _ => 0) [10, 20]
      (some (fun x => (if x = 10 then ("b.pod5" : String) else ("a.pod5" : String), ("u" : String))))
      none none = .ok [20, 10]
    ∧ firstSeen ([10, 20].map (fun x => if x = 10 then ("b.pod5" : String) else ("a.pod5" : String)))
        = ["b.pod5", "a.pod5"]
    ∧ firstSeen ([20, 10].map (fun x => if x = 10 then ("b.pod5" : String) else ("a.pod5" : String)))
        = ["a.pod5", "b.pod5"]
    ∧ (["a.pod5", "b.pod5"] : List String) ≠ ["b.pod5", "a.pod5"] :=
  ⟨rfl, by decide, by decide, by decide⟩

/-- C3 (amended): for every input and every argsort meeting the
`np.argsort` permutation contract, the planner's output is the image of a
permutation of the index range (hence a permutation of the input items);
it is the concatenation of per-file blocks, each block containing only
indices of its file, and the block labels are the `np.unique` order:
duplicate-free and ascending in code-point lexicographic order — not the
first-seen order of the claim. -/
theorem c3_plan_grouping {α : Type} [Inhabited α]
    (argsortU : List Nat → List Nat) (starts : String → String → Nat)
    (items : List α) (k : α → String × String) (fns us : List String)
    (hA : IsArgsortPerm argsortU)
    (hne : items ≠ [])
    (hf : fns = items.map (fun x => (k x).1))
    (hu : us = items.map (fun x => (k x).2)) :
    plan_fetch_order argsortU starts items (some k) none none
      = .ok ((planIndices argsortU starts fns us).map (fun i => items.getD i default))
    ∧ (planIndices argsortU starts fns us).Perm (List.range items.length)
    ∧ ((planIndices argsortU starts fns us).map (fun i => items.getD i default)).Perm items
    ∧ planIndices argsortU starts fns us
        = ((uniqueFns fns).map
            (fun fn => planGroup argsortU starts us fn (groupOf fns fn))).flatten
    ∧ List.Sorted (fun a b => strLe a b = true) (uniqueFns fns)
    ∧ (uniqueFns fns).Nodup
    ∧ (∀ fn ∈ uniqueFns fns, ∀ i ∈ planGroup argsortU starts us fn (groupOf fns fn),
        fns.getD i ("") = fn) := by
  subst hf hu
  have hlen : ¬ items.length = 0 := by simpa [List.length_eq_zero] using hne
  have hplen : (items.map (fun x => (k x).1)).length = items.length := List.length_map _ _
  have hperm := planIndices_perm argsortU hA starts
    (items.map (fun x => (k x).1)) (items.map (fun x => (k x).2))
  rw [hplen] at hperm
  refine ⟨?_, hperm, ?_, rfl, uniqueFns_sorted _, uniqueFns_nodup _,
    fun fn _ => planGroup_pure argsortU hA starts _ _ fn⟩
  · simp [plan_fetch_order, hlen]
  · have hmap := hperm.map (fun i => items.getD i default)
    rwa [mapGetD_range items default] at hmap

/-- C4: `plan_fetch_order` on an empty input returns the empty list before
any argument validation, and on a nonempty input with neither a key
function nor both parallel lists it raises `ValueError`
(`invalidArguments`). -/
theorem c4_plan_validation {α : Type} [Inhabited α]
    (argsortU : List Nat → List Nat) (starts : String → String → Nat)
    (items : List α) (key : Option (α → String × String))
    (fns us : Option (List String)) :
    plan_fetch_order argsortU starts ([] : List α) key fns us = .ok []
    ∧ (items ≠ [] → key = none → fns = none ∨ us = none →
        plan_fetch_order argsortU starts items key fns us = .error .invalidArguments) := by
  constructor
  · rfl
  · intro hne hk hor
    have hlen : ¬ items.length = 0 := by simpa [List.length_eq_zero] using hne
    subst hk
    rcases hor with h | h
    · subst h
      simp [plan_fetch_order, hlen]
    · subst h
      cases fns with
      | none => simp [plan_fetch_order, hlen]
      | some f => simp [plan_fetch_order, hlen]

/-- C4 witness: the empty-input fast path and the `ValueError` path at
concrete inputs. -/
theorem c4_plan_validation_witness :
    plan_fetch_order argsortInsertion (fun _ _ => 0) ([] : List Nat) none none none = .ok []
    ∧ plan_fetch_order argsortInsertion (fun _ _ => 0) [7] none none (some [("u" : String)])
        = .error .invalidArguments := by
  have h1 := c4_plan_validation argsortInsertion (fun _ _ => 0) ([7] : List Nat)
    none none (some [("u" : String)])
  have h2 := c4_plan_validation argsortInsertion (fun _ _ => 0) ([] : List Nat)
    none none none
  exact ⟨h2.1, h1.2 (by decide) rfl (Or.inl rfl)⟩

/-- C9: calling the planner with a key-extraction function is literally the
same computation as calling it with the explicit parallel file-name and
uuid lists extracted by that function, so the outputs coincide. -/
theorem c9_key_form_equals_list_form {α : Type} [Inhabited α]
    (argsortU : List Nat → List Nat) (starts : String → String → Nat)
    (items : List α) (k : α → String × String) :
    plan_fetch_order argsortU starts items (some k) none none
      = plan_fetch_order argsortU starts items none
          (some (items.map (fun x => (k x).1))) (some (items.map (fun x => (k x).2))) := rfl

/-- C10: when a build task fails (here: `save_index` raises at its artifact
path), the sequential path (`max_workers` resolved to 1) propagates the
exception out of `build_pod5_index` and never attempts the remaining
sorted files, while the parallel path catches the failure, leaves that
task's filesystem effects alone, continues with the siblings, and still
returns the full task list. -/
theorem c10_failure_isolation_only_parallel
    (build : String → IndexContent) (w : World) (f : String) (fs dirFiles : List String)
    (maxW maxW' : Option Nat) (rot rot' : Option Bool) (cpu cpu' : Option Nat)
    (hfail : _build_single build w f = .error (.taskFailed f))
    (hsorted : sortStrings dirFiles = f :: fs)
    (hseq : resolveMaxWorkers maxW rot cpu = 1)
    (hpar : resolveMaxWorkers maxW' rot' cpu' ≠ 1) :
    buildSeq build w (f :: fs) = .error (.taskFailed f)
    ∧ buildPar build w (f :: fs) = buildPar build w fs
    ∧ build_pod5_index build true dirFiles maxW true rot cpu w = .error (.taskFailed f)
    ∧ build_pod5_index build true dirFiles maxW' true rot' cpu' w
        = .ok (f :: fs, buildPar build w fs) := by
  have h1 : buildSeq build w (f :: fs) = .error (.taskFailed f) := by
    simp [buildSeq, hfail]
  have h2 : buildPar build w (f :: fs) = buildPar build w fs := by
    simp [buildPar, hfail]
  refine ⟨h1, h2, ?_, ?_⟩
  · simp [build_pod5_index, hsorted, hseq, h1]
  · simp [build_pod5_index, hsorted, hpar, h2]

/-- C10 witness: a two-file directory where building the first file fails;
sequentially the error escapes, in parallel the full task list is
returned with only the sibling's effects applied. -/
theorem c10_failure_isolation_witness :
    build_pod5_index (fun _ => ([] : IndexContent)) true (["/d/b.pod5", "/d/c.pod5"])
        (some 1) true none none ⟨[], ["/d/b.pod5.idx"]⟩
      = .error (.taskFailed ("/d/b.pod5"))
    ∧ build_pod5_index (fun _ => ([] : IndexContent)) true (["/d/b.pod5", "/d/c.pod5"])
        (some 4) true none none ⟨[], ["/d/b.pod5.idx"]⟩
      = .ok (["/d/b.pod5", "/d/c.pod5"],
          buildPar (fun _ => ([] : IndexContent)) ⟨[], ["/d/b.pod5.idx"]⟩ (["/d/c.pod5"])) := by
  have H := c10_failure_isolation_only_parallel (fun _ => ([] : IndexContent))
    ⟨[], ["/d/b.pod5.idx"]⟩ ("/d/b.pod5") (["/d/c.pod5"]) (["/d/b.pod5", "/d/c.pod5"])
    (some 1) (some 4) none none none none rfl (by decide) rfl (by decide)
  exact ⟨H.2.2.1, H.2.2.2⟩

/-- C3 witness: the grouping theorem applied to a concrete two-item,
one-file input. -/
theorem c3_plan_grouping_witness :
    plan_fetch_order argsortInsertion (fun _ _ => 0) [5, 6]
        (some (fun _ => (("f" : String), ("u" : String)))) none none
      = .ok ((planIndices argsortInsertion (fun _ _ => 0) [("f" : String), "f"]
          [("u" : String), "u"]).map (fun i => ([5, 6] : List Nat).getD i 0))
    ∧ ((planIndices argsortInsertion (fun _ _ => 0) [("f" : String), "f"]
        [("u" : String), "u"]).map (fun i => ([5, 6] : List Nat).getD i 0)).Perm [5, 6] := by
  have H := c3_plan_grouping argsortInsertion (fun _ _ => 0) ([5, 6] : List Nat)
    (fun _ => (("f" : String), ("u" : String))) [("f" : String), "f"] [("u" : String), "u"]
    argsortInsertion_isArgsortPerm (by decide) (by decide) (by decide)
  exact ⟨H.1, H.2.2.1⟩

/-- C5: resolution through `_get_indexer` raises `KeyError`
(`notRegistered`) for a never-registered name; raises `FileNotFoundError`
(`artifactUnavailable`) for a registered, non-resident name whose
artifact is missing; and for a registered name with a loadable artifact
it succeeds and the loaded handle becomes resident. -/
theorem c5_resolution_errors_and_residency
    (r₁ : Reader) (w₁ : World) (n₁ : String)
    (r₂ : Reader) (w₂ : World) (n₂ p₂ : String)
    (r₃ : Reader) (w₃ : World) (n₃ p₃ : String) (c₃ : IndexContent)
    (h₁a : dictGet r₁.indexers n₁ = none) (h₁b : dictGet r₁.pod5Paths n₁ = none)
    (h₂a : dictGet r₂.indexers n₂ = none) (h₂b : dictGet r₂.pod5Paths n₂ = some p₂)
    (h₂c : dictGet w₂.artifacts (indexPathFor p₂) = none)
    (h₃a : dictGet r₃.indexers n₃ = none) (h₃b : dictGet r₃.pod5Paths n₃ = some p₃)
    (h₃c : dictGet w₃.artifacts (indexPathFor p₃) = some c₃) :
    _get_indexer r₁ w₁ n₁ = .error (.notRegistered n₁)
    ∧ _get_indexer r₂ w₂ n₂ = .error (.artifactUnavailable (indexPathFor p₂))
    ∧ _get_indexer r₃ w₃ n₃
        = .ok (⟨p₃, c₃⟩, { r₃ with indexers := dictInsert r₃.indexers n₃ ⟨p₃, c₃⟩ })
    ∧ dictGet (dictInsert r₃.indexers n₃ (⟨p₃, c₃⟩ : Pod5Index)) n₃ = some ⟨p₃, c₃⟩ := by
  refine ⟨?_, ?_, ?_, dictGet_dictInsert_self _ _ _⟩
  · simp [_get_indexer, h₁a, h₁b]
  · simp [_get_indexer, _load_indexer, h₂a, h₂b, h₂c]
  · simp [_get_indexer, _load_indexer, h₃a, h₃b, h₃c]

/-- C5 witness: the three resolution outcomes at concrete states. -/
theorem c5_resolution_witness :
    _get_indexer ⟨[], [], true⟩ ⟨[], []⟩ ("x.pod5")
      = .error (.notRegistered ("x.pod5"))
    ∧ _get_indexer ⟨[(("x.pod5" : String), "/d/x.pod5")], [], true⟩ ⟨[], []⟩ ("x.pod5")
      = .error (.artifactUnavailable ("/d/x.pod5.idx"))
    ∧ _get_indexer ⟨[(("x.pod5" : String), "/d/x.pod5")], [], true⟩
        ⟨[(("/d/x.pod5.idx" : String), [(("u" : String), 3)])], []⟩ ("x.pod5")
      = .ok (⟨"/d/x.pod5", [(("u" : String), 3)]⟩,
          ⟨[(("x.pod5" : String), "/d/x.pod5")],
           [(("x.pod5" : String), ⟨"/d/x.pod5", [(("u" : String), 3)]⟩)], true⟩) := by
  have H := c5_resolution_errors_and_residency
    ⟨[], [], true⟩ ⟨[], []⟩ ("x.pod5")
    ⟨[(("x.pod5" : String), "/d/x.pod5")], [], true⟩ ⟨[], []⟩ ("x.pod5") ("/d/x.pod5")
    ⟨[(("x.pod5" : String), "/d/x.pod5")], [], true⟩
    ⟨[(("/d/x.pod5.idx" : String), [(("u" : String), 3)])], []⟩ ("x.pod5") ("/d/x.pod5")
    ([(("u" : String), 3)])
    (by decide) (by decide) (by decide) (by decide) (by decide) (by decide) (by decide)
    (by decide)
  exact ⟨H.1, H.2.1, H.2.2.1⟩

/-- C6: registering a file with no artifact while persistence is enabled
and `save_index` fails at the derived artifact path does not raise: the
filesystem is unchanged, the path is bound, the freshly built handle is
resident in the registry, and a subsequent fetch answers from it. -/
theorem c6_save_failure_nonfatal
    (build : String → IndexContent) (r : Reader) (w : World) (p u : String)
    (arg : Option Bool)
    (hart : dictGet w.artifacts (indexPathFor p) = none)
    (hsave : arg.getD r.saveIndex = true)
    (hfail : indexPathFor p ∈ w.saveFails) :
    (add_pod5 build r w p arg).2 = w
    ∧ dictGet (add_pod5 build r w p arg).1.pod5Paths (baseName p) = some p
    ∧ dictGet (add_pod5 build r w p arg).1.indexers (baseName p) = some ⟨p, build p⟩
    ∧ fetch_signal (add_pod5 build r w p arg).1 (add_pod5 build r w p arg).2 (baseName p) u
        = .ok (dictGet (build p) u, (add_pod5 build r w p arg).1) := by
  have hr : add_pod5 build r w p arg
      = ({ r with
            pod5Paths := dictInsert r.pod5Paths (baseName p) p
            indexers := dictInsert r.indexers (baseName p) ⟨p, build p⟩ }, w) := by
    simp [add_pod5, _build_indexer, hart, hsave, hfail]
  rw [hr]
  refine ⟨rfl, dictGet_dictInsert_self _ _ _, dictGet_dictInsert_self _ _ _, ?_⟩
  simp [fetch_signal, _get_indexer, dictGet_dictInsert_self]

/-- C6 witness: a registration whose save fails at the artifact path still
binds a usable in-memory handle. -/
theorem c6_save_failure_witness :
    (add_pod5 (fun _ => [(("u" : String), 4)]) ⟨[], [], true⟩
        ⟨[], ["/d/x.pod5.idx"]⟩ ("/d/x.pod5") none).2 = ⟨[], ["/d/x.pod5.idx"]⟩
    ∧ fetch_signal
        (add_pod5 (fun _ => [(("u" : String), 4)]) ⟨[], [], true⟩
          ⟨[], ["/d/x.pod5.idx"]⟩ ("/d/x.pod5") none).1
        (add_pod5 (fun _ => [(("u" : String), 4)]) ⟨[], [], true⟩
          ⟨[], ["/d/x.pod5.idx"]⟩ ("/d/x.pod5") none).2
        (baseName ("/d/x.pod5")) ("u")
      = .ok (some 4,
          (add_pod5 (fun _ => [(("u" : String), 4)]) ⟨[], [], true⟩
            ⟨[], ["/d/x.pod5.idx"]⟩ ("/d/x.pod5") none).1) := by
  have H := c6_save_failure_nonfatal (fun _ => [(("u" : String), 4)]) ⟨[], [], true⟩
    ⟨[], ["/d/x.pod5.idx"]⟩ ("/d/x.pod5") ("u") none (by decide) (by decide) (by decide)
  exact ⟨H.1, H.2.2.2⟩

/-- C7 counterexample: after registering `/a/x.pod5` (handle built and
resident) and then `/b/x.pod5` (same base name, artifact present so only
the path binding is overwritten), the binding names `/b/x.pod5` but
resolution still returns the resident handle for `/a/x.pod5` and serves
its payload 1 — not the last-registered path's payload 2.  Resolution
does not reflect the last registration. -/
theorem c7_stale_handle_counterexample :
    dictGet c7State2.1.pod5Paths ("x.pod5") = some ("/b/x.pod5")
    ∧ _get_indexer c7State2.1 c7State2.2 ("x.pod5")
        = .ok (⟨"/a/x.pod5", [(("u" : String), 1)]⟩, c7State2.1)
    ∧ (⟨"/a/x.pod5", [(("u" : String), 1)]⟩ : Pod5Index).pod5Path ≠ "/b/x.pod5"
    ∧ fetch_signal c7State2.1 c7State2.2 ("x.pod5") ("u") = .ok (some 1, c7State2.1)
    ∧ dictGet (c7Build ("/b/x.pod5")) ("u") = some 2 :=
  ⟨by decide, rfl, by decide, rfl, by decide⟩

/-- C7 (amended): a later registration under the same logical name always
overwrites the earlier path binding, and resolution reflects the
last-registered path whenever no handle is resident — but a handle left
resident by an earlier registration is returned unchanged, so resolution
reflects the last-registered path only in the absence of such a stale
resident handle. -/
theorem c7_last_registration_binding
    (build : String → IndexContent) (r : Reader) (w : World) (p₁ p₂ : String)
    (arg₁ arg₂ : Option Bool) (r' : Reader) (w' : World) (n p : String)
    (c : IndexContent) (idx : Pod5Index)
    (hname : baseName p₁ = baseName p₂) :
    dictGet (add_pod5 build (add_pod5 build r w p₁ arg₁).1 (add_pod5 build r w p₁ arg₁).2
        p₂ arg₂).1.pod5Paths (baseName p₁) = some p₂
    ∧ (dictGet r'.indexers n = none → dictGet r'.pod5Paths n = some p →
        dictGet w'.artifacts (indexPathFor p) = some c →
        _get_indexer r' w' n
          = .ok (⟨p, c⟩, { r' with indexers := dictInsert r'.indexers n ⟨p, c⟩ }))
    ∧ (dictGet r'.indexers n = some idx → _get_indexer r' w' n = .ok (idx, r')) := by
  refine ⟨?_, ?_, ?_⟩
  · rw [hname, add_pod5_pod5Paths]
    exact dictGet_dictInsert_self _ _ _
  · intro h1 h2 h3
    simp [_get_indexer, _load_indexer, h1, h2, h3]
  · intro h1
    simp [_get_indexer, h1]

/-- C7 witness: the amended statement at concrete states — binding
overwrite under a colliding base name, fresh-load resolution of the
last path, and the resident-handle short-circuit. -/
theorem c7_last_registration_witness :
    dictGet (add_pod5 (fun _ => ([] : IndexContent))
        (add_pod5 (fun _ => ([] : IndexContent)) ⟨[], [], true⟩ ⟨[], []⟩ ("/p/y.pod5") none).1
        (add_pod5 (fun _ => ([] : IndexContent)) ⟨[], [], true⟩ ⟨[], []⟩ ("/p/y.pod5") none).2
        ("/q/y.pod5") none).1.pod5Paths (baseName ("/p/y.pod5")) = some ("/q/y.pod5")
    ∧ _get_indexer ⟨[(("y.pod5" : String), "/q/y.pod5")], [], true⟩
        ⟨[(("/q/y.pod5.idx" : String), [(("u" : String), 8)])], []⟩ ("y.pod5")
      = .ok (⟨"/q/y.pod5", [(("u" : String), 8)]⟩,
          ⟨[(("y.pod5" : String), "/q/y.pod5")],
           [(("y.pod5" : String), ⟨"/q/y.pod5", [(("u" : String), 8)]⟩)], true⟩)
    ∧ _get_indexer ⟨[(("y.pod5" : String), "/q/y.pod5")],
          [(("y.pod5" : String), ⟨"/old/y.pod5", []⟩)], true⟩ ⟨[], []⟩ ("y.pod5")
      = .ok (⟨"/old/y.pod5", []⟩,
          ⟨[(("y.pod5" : String), "/q/y.pod5")],
           [(("y.pod5" : String), ⟨"/old/y.pod5", []⟩)], true⟩) := by
  have H1 := c7_last_registration_binding (fun _ => ([] : IndexContent))
    ⟨[], [], true⟩ ⟨[], []⟩ ("/p/y.pod5") ("/q/y.pod5") none none
    ⟨[(("y.pod5" : String), "/q/y.pod5")], [], true⟩
    ⟨[(("/q/y.pod5.idx" : String), [(("u" : String), 8)])], []⟩
    ("y.pod5") ("/q/y.pod5") ([(("u" : String), 8)]) (⟨"/q/y.pod5", [(("u" : String), 8)]⟩)
    (by decide)
  have H2 := c7_last_registration_binding (fun _ => ([] : IndexContent))
    ⟨[], [], true⟩ ⟨[], []⟩ ("/p/y.pod5") ("/q/y.pod5") none none
    ⟨[(("y.pod5" : String), "/q/y.pod5")],
     [(("y.pod5" : String), ⟨"/old/y.pod5", []⟩)], true⟩ ⟨[], []⟩
    ("y.pod5") ("/q/y.pod5") ([] : IndexContent) (⟨"/old/y.pod5", []⟩)
    (by decide)
  exact ⟨H1.1, H1.2.1 (by decide) (by decide) (by decide), H2.2.2 (by decide)⟩

/-- C8: the pickle round trip (`__getstate__` then restore) keeps the
file-name → path bindings, discards all live handles, and — provided any
handle that was resident for the name agrees with the on-disk artifact
(the reachable, collision-free case; the spec assumes artifact presence
implies validity) — the first post-resume resolution succeeds by
reloading the artifact and fetches return exactly the pre-suspend data. -/
theorem c8_suspend_resume_round_trip
    (r : Reader) (w : World) (name p u : String) (c : IndexContent)
    (hreg : dictGet r.pod5Paths name = some p)
    (hart : dictGet w.artifacts (indexPathFor p) = some c)
    (hres : ∀ idx : Pod5Index, dictGet r.indexers name = some idx → idx.content = c) :
    (getstate r).pod5Paths = r.pod5Paths
    ∧ (getstate r).indexers = []
    ∧ _get_indexer (getstate r) w name
        = .ok (⟨p, c⟩, { getstate r with indexers := dictInsert [] name ⟨p, c⟩ })
    ∧ (∃ r₁, fetch_signal r w name u = .ok (dictGet c u, r₁))
    ∧ (∃ r₂, fetch_signal (getstate r) w name u = .ok (dictGet c u, r₂)) := by
  refine ⟨rfl, rfl, ?_, ?_, ?_⟩
  · simp [_get_indexer, getstate, _load_indexer, dictGet, hreg, hart]
  · cases hidx : dictGet r.indexers name with
    | some idx =>
      refine ⟨r, ?_⟩
      have hc := hres idx hidx
      simp [fetch_signal, _get_indexer, hidx, hc]
    | none =>
      refine ⟨{ r with indexers := dictInsert r.indexers name ⟨p, c⟩ }, ?_⟩
      simp [fetch_signal, _get_indexer, _load_indexer, hidx, hreg, hart]
  · refine ⟨{ getstate r with indexers := dictInsert [] name ⟨p, c⟩ }, ?_⟩
    simp [fetch_signal, _get_indexer, getstate, _load_indexer, dictGet, hreg, hart]

/-- C8 witness: a registry with a resident handle that agrees with the
artifact; after the round trip the first resolve reloads and fetches
agree with the pre-suspend fetch. -/
theorem c8_suspend_resume_witness :
    (getstate ⟨[(("x.pod5" : String), "/d/x.pod5")],
        [(("x.pod5" : String), ⟨"/d/x.pod5", [(("u" : String), 7)]⟩)], true⟩).indexers = []
    ∧ (∃ r₁, fetch_signal ⟨[(("x.pod5" : String), "/d/x.pod5")],
          [(("x.pod5" : String), ⟨"/d/x.pod5", [(("u" : String), 7)]⟩)], true⟩
          ⟨[(("/d/x.pod5.idx" : String), [(("u" : String), 7)])], []⟩ ("x.pod5") ("u")
        = .ok (dictGet ([(("u" : String), 7)]) ("u"), r₁))
    ∧ (∃ r₂, fetch_signal
          (getstate ⟨[(("x.pod5" : String), "/d/x.pod5")],
            [(("x.pod5" : String), ⟨"/d/x.pod5", [(("u" : String), 7)]⟩)], true⟩)
          ⟨[(("/d/x.pod5.idx" : String), [(("u" : String), 7)])], []⟩ ("x.pod5") ("u")
        = .ok (dictGet ([(("u" : String), 7)]) ("u"), r₂)) := by
  have H := c8_suspend_resume_round_trip
    ⟨[(("x.pod5" : String), "/d/x.pod5")],
     [(("x.pod5" : String), ⟨"/d/x.pod5", [(("u" : String), 7)]⟩)], true⟩
    ⟨[(("/d/x.pod5.idx" : String), [(("u" : String), 7)])], []⟩
    ("x.pod5") ("/d/x.pod5") ("u") ([(("u" : String), 7)])
    (by decide) (by decide)
    (by intro idx h
        have h2 : some (⟨"/d/x.pod5", [(("u" : String), 7)]⟩ : Pod5Index) = some idx := h
        cases h2
        rfl)
  exact ⟨H.2.1, H.2.2.2.1, H.2.2.2.2⟩
